import Mathlib

/-!
Verification of the papaya conversation-session engine and its backing store.

The Go source is shallowly embedded:
* `internal/store/store.go` (current version, string user IDs) — the BoltDB
  buckets become insertion-ordered association lists `List (String × α)`;
  `bbolt.Bucket.Get/Put/Delete` become `bget`/`bput`/`bdel`.  Every verified
  property is invariant under the order of bucket entries, so the difference
  between the BoltDB key-ordered iteration and insertion order is immaterial.
* `internal/chat` (the current version: string user IDs, auto-summarization) —
  the two external completion calls are oracles passed as parameters
  (`Option (List String)`: `none` is a transport error, the list models
  `resp.Choices` contents); wall-clock instants are explicit parameters
  (`Int` nanoseconds for the rate limiter, a preformatted `String` day for
  check-in, `Int` Unix seconds for media timestamps).
Go `int`/`int64` become `Int`; Go string errors become `Except String`;
the chat error values become the inductive `ChatError` (the Go rate-limit
message embeds `int(m.rateLimit)`, modelled by the carried `Int`).
-/

set_option linter.unusedVariables false

namespace Papaya

/-- store.User (current schema: string ID). -/
structure User where
  ID : String
  Username : String
  Points : Int
  LastCheckin : String
  IsAdmin : Bool
  DisplayName : String
  Persona : String
deriving DecidableEq, Repr

/-- store.Media.  The Go field `Type` is renamed `MType` (`Type` is a Lean keyword). -/
structure Media where
  ID : String
  FileID : String
  MType : String
  Caption : String
  AddedBy : String
  CreatedAt : Int
  R2Key : String
  Tags : List String
deriving DecidableEq, Repr

/-- bbolt `Bucket.Get`. -/
def bget {α : Type} : List (String × α) → String → Option α
  | [], _ => none
  | (k', v) :: rest, k => if k' = k then some v else bget rest k

/-- bbolt `Bucket.Put`: replace the value at an existing key, else insert. -/
def bput {α : Type} : List (String × α) → String → α → List (String × α)
  | [], k, v => [(k, v)]
  | (k', v') :: rest, k, v =>
    if k' = k then (k, v) :: rest else (k', v') :: bput rest k v

/-- bbolt `Bucket.Delete`: removing an absent key is a silent no-op (nil error). -/
def bdel {α : Type} : List (String × α) → String → List (String × α)
  | [], _ => []
  | (k', v') :: rest, k =>
    if k' = k then bdel rest k else (k', v') :: bdel rest k

/-- The five buckets created by store.New. -/
structure StoreState where
  users : List (String × User)
  images : List (String × Media)
  subs : List (String × String)
  settings : List (String × String)
  history : List (String × String)
deriving DecidableEq, Repr

/-- store.saveUser: marshal and put at key `user.ID`. -/
def saveUser (users : List (String × User)) (u : User) : List (String × User) :=
  bput users u.ID u

/-- store.AddPoints. -/
def addPoints (st : StoreState) (id : String) (delta : Int) :
    Except String (User × StoreState) :=
  match bget st.users id with
  | none => .error ("user " ++ id ++ " not found")
  | some u =>
    let u' : User := { u with Points := u.Points + delta }
    .ok (u', { st with users := saveUser st.users u' })

/-- store.SetPoints. -/
def setPoints (st : StoreState) (id : String) (points : Int) :
    Except String (User × StoreState) :=
  match bget st.users id with
  | none => .error ("user " ++ id ++ " not found")
  | some u =>
    let u' : User := { u with Points := points }
    .ok (u', { st with users := saveUser st.users u' })

/-- store.PromoteAdmin. -/
def promoteAdmin (st : StoreState) (id : String) :
    Except String (User × StoreState) :=
  match bget st.users id with
  | none => .error ("user " ++ id ++ " not found")
  | some u =>
    let u' : User := { u with IsAdmin := true }
    .ok (u', { st with users := saveUser st.users u' })

/-- store.CheckIn.  `today` is `time.Now().In(s.zone).Format("2006-01-02")`,
the current day in the fixed UTC+8 zone, passed in explicitly. -/
def checkIn (st : StoreState) (id : String) (reward : Int) (today : String) :
    Except String (Int × User × StoreState) :=
  match bget st.users id with
  | none => .error "user not found"
  | some u =>
    if u.LastCheckin = today then
      .ok (0, u, st)
    else
      let u' : User := { u with LastCheckin := today, Points := u.Points + reward }
      .ok (reward, u', { st with users := saveUser st.users u' })

/-- store.SetPersona (store extensions). -/
def setPersona (st : StoreState) (id : String) (persona : String) :
    Except String StoreState :=
  match bget st.users id with
  | none => .error ("user " ++ id ++ " not found")
  | some u =>
    .ok { st with users := saveUser st.users { u with Persona := persona } }

/-- store.SaveMedia.  `nowUnix` is `time.Now().Unix()`. -/
def saveMedia (st : StoreState) (id paramsType caption addedBy : String)
    (nowUnix : Int) : StoreState :=
  let m : Media :=
    { ID := id, FileID := id, MType := paramsType, Caption := caption,
      AddedBy := addedBy, CreatedAt := nowUnix, R2Key := "", Tags := [] }
  { st with images := bput st.images id m }

/-- store.SetMediaR2. -/
def setMediaR2 (st : StoreState) (id r2Key : String) : Except String StoreState :=
  match bget st.images id with
  | none => .error ("media " ++ id ++ " not found")
  | some m =>
    .ok { st with images := bput st.images id { m with R2Key := r2Key } }

/-- store.SetMediaTags (store extensions). -/
def setMediaTags (st : StoreState) (id : String) (tags : List String) :
    Except String StoreState :=
  match bget st.images id with
  | none => .error ("media " ++ id ++ " not found")
  | some m =>
    .ok { st with images := bput st.images id { m with Tags := tags } }

/-- store.DeleteMedia: `bucket.Delete` never reports a missing key. -/
def deleteMedia (st : StoreState) (id : String) : Except String StoreState :=
  .ok { st with images := bdel st.images id }

/-- store.GetRandomMedia.  `nowNano` is `time.Now().UnixNano()`; the Go index
is `nowNano % int64(len(list))`. -/
def getRandomMedia (st : StoreState) (nowNano : Nat) : Except String (Option Media) :=
  let list := st.images.map Prod.snd
  if h : list.length = 0 then .ok none
  else .ok (some (list.get ⟨nowNano % list.length, Nat.mod_lt _ (Nat.pos_of_ne_zero h)⟩))

/-- Go slice `full[offset:end]` with `end = min (offset+limit) len`, after the
`offset >= len` guard — shared tail of ListUsers and ListMedia. -/
def paginate {α : Type} (full : List α) (limit offset : Nat) : List α :=
  if full.length ≤ offset then []
  else (full.take (min (offset + limit) full.length)).drop offset

/-- store.ListUsers: collect the users bucket, sort by ID ascending, paginate.
`sort.Slice` with comparator `users[i].ID < users[j].ID` produces a
nondecreasing-by-ID ordering; bucket keys (= IDs) are unique, so the sorted
sequence is unique and `insertionSort` with `≤` computes it. -/
def listUsers (st : StoreState) (limit offset : Nat) : List User :=
  paginate (List.insertionSort (fun a b => a.ID ≤ b.ID) (st.users.map Prod.snd)) limit offset

/-- store.ListMedia: collect the images bucket, sort by CreatedAt descending,
paginate.  `sort.Slice` is unstable, so at equal timestamps the Go order is
unspecified; `insertionSort` picks one order that is sorted by the same
comparator. -/
def listMedia (st : StoreState) (limit offset : Nat) : List Media :=
  paginate (List.insertionSort (fun a b => b.CreatedAt ≤ a.CreatedAt) (st.images.map Prod.snd)) limit offset

/-! Chat engine embedding: the current `internal/chat` (string user IDs,
summarization).  The write-behind `go m.store.SaveChatHistory(...)` is
modelled as an immediate store write, per the per-user ordering the spec
requirement; the model-name resolution (`GetModel`) only chooses the model
string of the outbound request and is not modelled. -/

/-- openai.ChatCompletionMessage (role and content; the role constants are
`"system"`, `"user"`, `"assistant"`). -/
structure ChatCompletionMessage where
  role : String
  content : String
deriving DecidableEq, Repr

/-- chat constants. -/
def maxHistory : Nat := 20

def summaryThreshold : Nat := 15

def keepRecent : Nat := 5

def defaultRateLimitPerMin : Nat := 20

/-- Value of `time.Minute` in nanoseconds; rate-limiter instants are `Int` nanoseconds. -/
def minuteNs : Int := 60000000000

def defaultSystemMessages : List ChatCompletionMessage :=
  [⟨"system", "你是一名友好、简洁且乐于助人的助手，请在回答时尽量给出明确、可执行的建议。必要时可以用有序列表展示步骤。"⟩,
   ⟨"system", "如果用户的问题不完整，先提出澄清问题；如果问题已解决，可以简短总结。"⟩]

/-- chat.rateWindow. -/
structure RateWindow where
  start : Int
  count : Nat
deriving DecidableEq, Repr

/-- The mutable Manager state: `m.rates`, `m.histories`, and the history
bucket behind `store.GetChatHistory`/`SaveChatHistory` (already decoded:
`none` is absent-or-corrupt, which the Go load path treats as absent). -/
structure ChatState where
  rates : String → Option RateWindow
  histories : String → Option (List ChatCompletionMessage)
  storedHistories : String → Option (List ChatCompletionMessage)

/-- The distinct error conditions Chat can return.  In Go these are the error
strings "OpenAI client is not configured", "rate limit exceeded (max %d/min),
please try again later" (carrying `int(m.rateLimit)`), the transport error
from `CreateChatCompletion`, and "empty response". -/
inductive ChatError where
  | clientNotConfigured
  | rateLimited (limit : Int)
  | completionFailed
  | emptyResponse
deriving DecidableEq, Repr

/-- chat.Manager.consumeRate.  `m.rateLimit` is a Go `float64` that is only
ever assigned `float64(n)` for an `int` n, so it is modelled as `Int`;
`float64(window.count) >= m.rateLimit` becomes `rateLimit ≤ (count : Int)`. -/
def consumeRate (rateLimit : Int) (rates : String → Option RateWindow)
    (userID : String) (now : Int) :
    Except ChatError (String → Option RateWindow) :=
  if rateLimit ≤ 0 then .ok rates
  else
    match rates userID with
    | none => .ok (fun u => if u = userID then some ⟨now, 1⟩ else rates u)
    | some window =>
      if minuteNs < now - window.start then
        .ok (fun u => if u = userID then some ⟨now, 1⟩ else rates u)
      else if rateLimit ≤ (window.count : Int) then
        .error (.rateLimited rateLimit)
      else
        .ok (fun u => if u = userID then some ⟨window.start, window.count + 1⟩ else rates u)

/-- chat.Manager.summarizeHistory, outcome only: the oracle stands for the
summarization completion call (`none` = transport error, the list =
`resp.Choices` contents).  The conversation text built from `msgs` only feeds
the oracle call, so it does not influence the outcome. -/
def summarizeHistory (msgs : List ChatCompletionMessage)
    (oracle : Option (List String)) : Except String String :=
  match oracle with
  | none => .error "summarize request failed"
  | some [] => .error "empty summary response"
  | some (c :: _) => .ok c

/-- The fixed marker prefixed to the synthetic summary turn. -/
def summaryMarker : String := "Prior conversation summary: "

/-- Chat, history-loading step (lines around `m.histories[userID]` /
`store.GetChatHistory`): memory first, else the store (memoizing), else empty. -/
def loadHistory (st : ChatState) (userID : String) :
    List ChatCompletionMessage × ChatState :=
  match st.histories userID with
  | some h => (h, st)
  | none =>
    match st.storedHistories userID with
    | some h =>
      (h, { st with histories := fun u => if u = userID then some h else st.histories u })
    | none => ([], st)

/-- Chat, auto-summarization step: when the history is longer than
`summaryThreshold`, summarize everything but the last `keepRecent` messages;
on success replace the history with `[synthetic system summary] ++ recent`
in memory and in the store; on summarization failure keep the history as-is. -/
def compactStep (st : ChatState) (userID : String)
    (history : List ChatCompletionMessage) (oracle : Option (List String)) :
    List ChatCompletionMessage × ChatState :=
  if summaryThreshold < history.length then
    let cutIdx := history.length - keepRecent
    if 0 < cutIdx then
      let older := history.take cutIdx
      let recent := history.drop cutIdx
      match summarizeHistory older oracle with
      | .ok summary =>
        let newHistory :=
          ChatCompletionMessage.mk "system" (summaryMarker ++ summary) :: recent
        (newHistory,
          { st with
            histories := fun u => if u = userID then some newHistory else st.histories u,
            storedHistories := fun u => if u = userID then some newHistory else st.storedHistories u })
      | .error _ => (history, st)
    else (history, st)
  else (history, st)

/-- The appended-then-trimmed history of a completed turn: add the
user/assistant pair, and when the result is longer than `maxHistory` drop
from the oldest end to keep the newest `maxHistory` messages. -/
def trimTurn (current : List ChatCompletionMessage) (prompt answer : String) :
    List ChatCompletionMessage :=
  let current2 := current ++
    [ChatCompletionMessage.mk "user" prompt, ChatCompletionMessage.mk "assistant" answer]
  if maxHistory < current2.length then current2.drop (current2.length - maxHistory)
  else current2

/-- Chat, post-completion append: the bounded history is stored in memory and
handed to persistence (the same slice). -/
def appendTurn (st : ChatState) (userID prompt answer : String) : ChatState :=
  let current3 := trimTurn ((st.histories userID).getD []) prompt answer
  { st with
    histories := fun u => if u = userID then some current3 else st.histories u,
    storedHistories := fun u => if u = userID then some current3 else st.storedHistories u }

/-- The system messages of the outbound request: persona override first (when
set), then the fixed baseline instructions. -/
def systemMessagesFor (user : User) : List ChatCompletionMessage :=
  (if user.Persona ≠ "" then [ChatCompletionMessage.mk "system" user.Persona] else [])
    ++ defaultSystemMessages

/-- Observable outcome of one Chat call: the returned value, the Manager state
afterwards, the payload of the completion call when one was made, and the
(ghost) value of the Go local `history` after the summarization step. -/
structure ChatOutcome where
  result : Except ChatError String
  state : ChatState
  request : Option (List ChatCompletionMessage)
  historyUsed : List ChatCompletionMessage

/-- Chat after the client check and rate consumption: load, compact, assemble
the request, call the completion oracle, and on success append and persist. -/
def chatCore (st1 : ChatState) (user : User) (prompt : String)
    (summarizeOracle : Option (List String))
    (completionOracle : Option (List String)) : ChatOutcome :=
  let load := loadHistory st1 user.ID
  let comp := compactStep load.2 user.ID load.1 summarizeOracle
  let messages := systemMessagesFor user ++ comp.1 ++ [ChatCompletionMessage.mk "user" prompt]
  match completionOracle with
  | none => ⟨.error .completionFailed, comp.2, some messages, comp.1⟩
  | some [] => ⟨.error .emptyResponse, comp.2, some messages, comp.1⟩
  | some (answer :: _) =>
    ⟨.ok answer, appendTurn comp.2 user.ID prompt answer, some messages, comp.1⟩

/-- chat.Manager.Chat.  `clientConfigured` is `m.client != nil`;
`completionOracle` stands for `CreateChatCompletion` on the assembled request
(`none` = transport error, the list = `resp.Choices` contents). -/
def chat (st : ChatState) (clientConfigured : Bool) (rateLimit : Int)
    (user : User) (prompt : String) (now : Int)
    (summarizeOracle : Option (List String))
    (completionOracle : Option (List String)) : ChatOutcome :=
  if clientConfigured then
    match consumeRate rateLimit st.rates user.ID now with
    | .error e => ⟨.error e, st, none, []⟩
    | .ok rates' =>
      chatCore { st with rates := rates' } user prompt summarizeOracle completionOracle
  else ⟨.error .clientNotConfigured, st, none, []⟩

/-- The conversation a next turn would load for `userID`: memory first, else
the persisted blob, else empty. -/
def visibleHistory (st : ChatState) (userID : String) : List ChatCompletionMessage :=
  match st.histories userID with
  | some h => h
  | none => (st.storedHistories userID).getD []

/-- The inputs of one Chat call (state excluded). -/
structure ChatTurn where
  clientConfigured : Bool
  rateLimit : Int
  user : User
  prompt : String
  now : Int
  summarizeOracle : Option (List String)
  completionOracle : Option (List String)

def chatTurn (st : ChatState) (t : ChatTurn) : ChatOutcome :=
  chat st t.clientConfigured t.rateLimit t.user t.prompt t.now
    t.summarizeOracle t.completionOracle

/-- Run a sequence of Chat calls, threading the Manager state. -/
def runChats (st : ChatState) : List ChatTurn → ChatState
  | [] => st
  | t :: ts => runChats (chatTurn st t).state ts

/-- Every call of the sequence returned an answer (no error). -/
def chatsSucceed (st : ChatState) : List ChatTurn → Prop
  | [] => True
  | t :: ts => (∃ a, (chatTurn st t).result = .ok a) ∧ chatsSucceed (chatTurn st t).state ts

/-! Helper lemmas about the bucket primitives. -/

theorem bget_bput_self {α : Type} (l : List (String × α)) (k : String) (v : α) :
    bget (bput l k v) k = some v := by
  induction l with
  | nil => simp [bput, bget]
  | cons p rest ih =>
    obtain ⟨k', v'⟩ := p
    by_cases h : k' = k
    · simp [bput, bget, h]
    · simp [bput, bget, h, ih]

theorem bdel_eq_of_bget_none {α : Type} (l : List (String × α)) (k : String)
    (h : bget l k = none) : bdel l k = l := by
  induction l with
  | nil => rfl
  | cons p rest ih =>
    obtain ⟨k', v'⟩ := p
    rw [bget] at h
    by_cases hk : k' = k
    · simp [hk] at h
    · rw [if_neg hk] at h
      rw [bdel, if_neg hk, ih h]

/-! Concrete states used by the witnesses and counterexamples. -/

def emptyStore : StoreState := ⟨[], [], [], [], []⟩

def demoUser : User :=
  { ID := "u1", Username := "alice", Points := 5, LastCheckin := "2026-10-10",
    IsAdmin := false, DisplayName := "Alice", Persona := "" }

def demoStore : StoreState := ⟨[("u1", demoUser)], [], [], [], []⟩

def demoUserAfter : User :=
  { ID := "u1", Username := "alice", Points := 15, LastCheckin := "2026-10-11",
    IsAdmin := false, DisplayName := "Alice", Persona := "" }

def demoStoreAfter : StoreState := ⟨[("u1", demoUserAfter)], [], [], [], []⟩

def mediaStore1 : StoreState := saveMedia emptyStore "f1" "photo" "c1" "alice" 100

def mediaStore2 : StoreState := saveMedia mediaStore1 "f1" "photo" "c2" "alice" 200

/-! Claim theorems about the store. -/

/-- The user record CheckIn writes on a fresh day. -/
def checkedInUser (u : User) (today : String) (reward : Int) : User :=
  { u with LastCheckin := today, Points := u.Points + reward }

/-- The store CheckIn leaves behind on a fresh day. -/
def checkedInStore (st : StoreState) (u : User) (today : String) (reward : Int) : StoreState :=
  { st with users := saveUser st.users (checkedInUser u today reward) }

/-- C1: for a user present in the Users bucket, CheckIn on a day equal to the
stored last-check-in day is a no-op returning gained = 0 and the unchanged
user and store; on any other day it sets the day, adds the reward to the
points, and returns gained = reward with the updated user.  Consequently two
CheckIn calls on the same fresh day grant the reward exactly once: the first
returns gained = reward, the second gained = 0, and both return the user with
the post-first-call balance `u.Points + reward`. -/
theorem checkIn_idempotent_per_day (st : StoreState) (id today : String)
    (reward : Int) (u : User)
    (hu : bget st.users id = some u) (hid : u.ID = id) :
    (u.LastCheckin = today → checkIn st id reward today = .ok (0, u, st)) ∧
    (u.LastCheckin ≠ today →
      checkIn st id reward today =
        .ok (reward, checkedInUser u today reward, checkedInStore st u today reward) ∧
      checkIn (checkedInStore st u today reward) id reward today =
        .ok (0, checkedInUser u today reward, checkedInStore st u today reward) ∧
      (checkedInUser u today reward).Points = u.Points + reward) := by
  constructor
  · intro h
    simp [checkIn, hu, h]
  · intro h
    refine ⟨?_, ?_, rfl⟩
    · simp [checkIn, hu, h, checkedInUser, checkedInStore]
    · have hget : bget (checkedInStore st u today reward).users id =
          some (checkedInUser u today reward) := by
        have hid' : (checkedInUser u today reward).ID = id := hid
        rw [checkedInStore, saveUser, hid']
        exact bget_bput_self _ _ _
      simp [checkIn, hget, checkedInUser]

theorem checkIn_idempotent_per_day_witness :
    checkIn demoStore "u1" 10 "2026-10-11" = .ok (10, demoUserAfter, demoStoreAfter) ∧
    checkIn demoStoreAfter "u1" 10 "2026-10-11" = .ok (0, demoUserAfter, demoStoreAfter) := by
  have h := (checkIn_idempotent_per_day demoStore "u1" "2026-10-11" 10 demoUser rfl rfl).2
    (by decide)
  exact ⟨h.1, h.2.1⟩

/-- C7 counterexample: DeleteMedia on an id absent from the media bucket does
NOT return a not-found error — it returns success (the bbolt Delete is a
silent no-op on a missing key), refuting the claim for DeleteMedia. -/
theorem deleteMedia_unknown_no_error :
    bget emptyStore.images "m1" = none ∧
    deleteMedia emptyStore "m1" = .ok emptyStore := ⟨rfl, rfl⟩

/-- C7 amended: the user mutations (AddPoints, SetPoints, PromoteAdmin,
CheckIn, SetPersona) on an id absent from the Users bucket and the media
mutations SetMediaR2 and SetMediaTags on an id absent from the media bucket
return a distinct 'not found' error and leave the store unchanged, while
DeleteMedia on an absent id returns success (no error) and leaves the store
unchanged. -/
theorem mutations_unknown_key (st : StoreState) (id mid today persona r2 : String)
    (delta points reward : Int) (tags : List String)
    (hu : bget st.users id = none) (hm : bget st.images mid = none) :
    addPoints st id delta = .error ("user " ++ id ++ " not found") ∧
    setPoints st id points = .error ("user " ++ id ++ " not found") ∧
    promoteAdmin st id = .error ("user " ++ id ++ " not found") ∧
    checkIn st id reward today = .error "user not found" ∧
    setPersona st id persona = .error ("user " ++ id ++ " not found") ∧
    setMediaR2 st mid r2 = .error ("media " ++ mid ++ " not found") ∧
    setMediaTags st mid tags = .error ("media " ++ mid ++ " not found") ∧
    deleteMedia st mid = .ok st := by
  refine ⟨?_, ?_, ?_, ?_, ?_, ?_, ?_, ?_⟩
  · simp [addPoints, hu]
  · simp [setPoints, hu]
  · simp [promoteAdmin, hu]
  · simp [checkIn, hu]
  · simp [setPersona, hu]
  · simp [setMediaR2, hm]
  · simp [setMediaTags, hm]
  · rw [deleteMedia, bdel_eq_of_bget_none _ _ hm]

theorem mutations_unknown_key_witness :
    addPoints emptyStore "u9" 1 = .error "user u9 not found" ∧
    deleteMedia emptyStore "m9" = .ok emptyStore := by
  have h := mutations_unknown_key emptyStore "u9" "m9" "2026-10-11" "p" "r" 1 2 3 [] rfl rfl
  exact ⟨h.1, h.2.2.2.2.2.2.2⟩

/-- C8 counterexample: two SaveMedia ingestions performed in sequence with the
same caller-supplied file handle do not receive distinct store-assigned IDs —
the second overwrites the first, the store holds a single record, and its ID
is exactly the caller-supplied handle (not a value derived from the ingestion
timestamps 100 and 200). -/
theorem saveMedia_id_not_timestamp :
    mediaStore2.images.map (fun p => p.2.ID) = ["f1"] ∧
    mediaStore2.images.length = 1 ∧
    bget mediaStore1.images "f1" =
      some { ID := "f1", FileID := "f1", MType := "photo", Caption := "c1",
             AddedBy := "alice", CreatedAt := 100, R2Key := "", Tags := [] } :=
  ⟨rfl, rfl, rfl⟩

/-- C8 amended: the record created by SaveMedia has both ID and FileID equal
to the caller-supplied file handle, CreatedAt equal to the ingestion Unix
timestamp (seconds), and empty R2 key and tags; a repeated ingestion with the
same handle overwrites the same record rather than receiving a fresh ID. -/
theorem saveMedia_record_shape (st : StoreState) (id paramsType caption addedBy : String)
    (nowUnix : Int) :
    bget (saveMedia st id paramsType caption addedBy nowUnix).images id =
      some { ID := id, FileID := id, MType := paramsType, Caption := caption,
             AddedBy := addedBy, CreatedAt := nowUnix, R2Key := "", Tags := [] } := by
  rw [saveMedia]
  exact bget_bput_self _ _ _

/-- C10: GetRandomMedia on an empty media bucket returns a nil media with a
nil error (`.ok none` — absence signalled only via the result), and on a
non-empty bucket returns one of the stored media records. -/
theorem getRandomMedia_empty_or_member (st : StoreState) (nowNano : Nat) :
    (st.images = [] → getRandomMedia st nowNano = .ok none) ∧
    (st.images ≠ [] →
      ∃ m, getRandomMedia st nowNano = .ok (some m) ∧ m ∈ st.images.map Prod.snd) := by
  constructor
  · intro h
    simp [getRandomMedia, h]
  · intro h
    have hl : ¬((st.images.map Prod.snd).length = 0) := by
      simp only [List.length_map, List.length_eq_zero]
      exact h
    refine ⟨(st.images.map Prod.snd).get
      ⟨nowNano % (st.images.map Prod.snd).length, Nat.mod_lt _ (Nat.pos_of_ne_zero hl)⟩,
      ?_, List.get_mem _ _ _⟩
    simp only [getRandomMedia]
    rw [dif_neg hl]

theorem length_paginate {α : Type} (full : List α) (limit offset : Nat) :
    (paginate full limit offset).length = min limit (full.length - offset) := by
  rw [paginate]
  split
  · rename_i hle
    simp only [List.length_nil]
    omega
  · rename_i hgt
    rw [List.length_drop, List.length_take]
    omega

instance usersLE_total : IsTotal User (fun a b => a.ID ≤ b.ID) :=
  ⟨fun a b => le_total a.ID b.ID⟩

instance usersLE_trans : IsTrans User (fun a b => a.ID ≤ b.ID) :=
  ⟨fun _ _ _ hab hbc => le_trans hab hbc⟩

instance mediaCreated_total : IsTotal Media (fun a b => b.CreatedAt ≤ a.CreatedAt) :=
  ⟨fun a b => le_total b.CreatedAt a.CreatedAt⟩

instance mediaCreated_trans : IsTrans Media (fun a b => b.CreatedAt ≤ a.CreatedAt) :=
  ⟨fun _ _ _ hab hbc => le_trans hbc hab⟩

/-- C5: for every limit and offset (the Go ints are nonnegative here, so they
are modelled as `Nat`), ListUsers pages a fixed full ordering of the stored
users that is sorted by ID ascending, and ListMedia pages a fixed full
ordering of the stored media that is sorted by creation time descending; each
page has length `min limit (total - offset)` (truncated subtraction gives
`max 0` for free) and an offset at or beyond the total yields the empty
slice — the list operations return no error. -/
theorem listUsers_listMedia_pagination (st : StoreState) (limit offset : Nat) :
    (∃ full : List User,
      full.Perm (st.users.map Prod.snd) ∧
      full.Sorted (fun a b => a.ID ≤ b.ID) ∧
      listUsers st limit offset = paginate full limit offset ∧
      (listUsers st limit offset).length = min limit (full.length - offset) ∧
      (full.length ≤ offset → listUsers st limit offset = [])) ∧
    (∃ full : List Media,
      full.Perm (st.images.map Prod.snd) ∧
      full.Sorted (fun a b => b.CreatedAt ≤ a.CreatedAt) ∧
      listMedia st limit offset = paginate full limit offset ∧
      (listMedia st limit offset).length = min limit (full.length - offset) ∧
      (full.length ≤ offset → listMedia st limit offset = [])) := by
  constructor
  · refine ⟨List.insertionSort (fun a b => a.ID ≤ b.ID) (st.users.map Prod.snd),
      List.perm_insertionSort _ _, List.sorted_insertionSort _ _, rfl, ?_, ?_⟩
    · rw [listUsers, length_paginate]
    · intro hoff
      rw [listUsers, paginate, if_pos hoff]
  · refine ⟨List.insertionSort (fun a b => b.CreatedAt ≤ a.CreatedAt) (st.images.map Prod.snd),
      List.perm_insertionSort _ _, List.sorted_insertionSort _ _, rfl, ?_, ?_⟩
    · rw [listMedia, length_paginate]
    · intro hoff
      rw [listMedia, paginate, if_pos hoff]

theorem listUsers_listMedia_pagination_witness :
    (listUsers demoStore 10 0).length = 1 ∧ listMedia demoStore 10 0 = [] := by
  obtain ⟨⟨fu, hpu, _, _, hlu, _⟩, ⟨fm, hpm, _, _, _, hem⟩⟩ :=
    listUsers_listMedia_pagination demoStore 10 0
  have h1 : fu.length = 1 := by simpa [demoStore] using hpu.length_eq
  have h0 : fm.length = 0 := by simpa [demoStore] using hpm.length_eq
  constructor
  · rw [hlu, h1]
    decide
  · exact hem (by omega)

theorem getRandomMedia_empty_or_member_witness :
    ∃ m, getRandomMedia mediaStore1 7 = .ok (some m) ∧
      m ∈ mediaStore1.images.map Prod.snd :=
  (getRandomMedia_empty_or_member mediaStore1 7).2 (by decide)

/-! Helper lemmas about the chat engine. -/

theorem loadHistory_fst (st : ChatState) (u : String) :
    (loadHistory st u).1 = visibleHistory st u := by
  rw [loadHistory, visibleHistory]
  cases st.histories u with
  | some h => rfl
  | none => cases st.storedHistories u with
    | some h => rfl
    | none => rfl

theorem loadHistory_snd_stored (st : ChatState) (u : String) :
    (loadHistory st u).2.storedHistories = st.storedHistories := by
  rw [loadHistory]
  cases st.histories u with
  | some h => rfl
  | none => cases st.storedHistories u with
    | some h => rfl
    | none => rfl

theorem loadHistory_snd_rates (st : ChatState) (u : String) :
    (loadHistory st u).2.rates = st.rates := by
  rw [loadHistory]
  cases st.histories u with
  | some h => rfl
  | none => cases st.storedHistories u with
    | some h => rfl
    | none => rfl

theorem loadHistory_snd_visible (st : ChatState) (u v : String) :
    visibleHistory (loadHistory st u).2 v = visibleHistory st v := by
  rw [loadHistory]
  cases hm : st.histories u with
  | some h => rfl
  | none => cases hs : st.storedHistories u with
    | some h =>
      rw [visibleHistory, visibleHistory]
      by_cases hv : v = u
      · subst hv
        simp [hm, hs]
      · simp [hv]
    | none => rfl

theorem compactStep_skip (st : ChatState) (u : String)
    (history : List ChatCompletionMessage) (oracle : Option (List String))
    (h : ¬ summaryThreshold < history.length) :
    compactStep st u history oracle = (history, st) := by
  rw [compactStep, if_neg h]

theorem compactStep_sum_fail (st : ChatState) (u : String)
    (history : List ChatCompletionMessage) (oracle : Option (List String))
    (h : oracle = none ∨ oracle = some []) :
    compactStep st u history oracle = (history, st) := by
  rcases h with h | h <;> subst h <;>
    simp [compactStep, summarizeHistory]

theorem compactStep_fire (st : ChatState) (u : String)
    (history : List ChatCompletionMessage) (s : String) (rest : List String)
    (hlen : summaryThreshold < history.length) :
    compactStep st u history (some (s :: rest)) =
      (ChatCompletionMessage.mk "system" (summaryMarker ++ s) ::
          history.drop (history.length - keepRecent),
       { st with
         histories := fun v =>
           if v = u then
             some (ChatCompletionMessage.mk "system" (summaryMarker ++ s) ::
               history.drop (history.length - keepRecent))
           else st.histories v,
         storedHistories := fun v =>
           if v = u then
             some (ChatCompletionMessage.mk "system" (summaryMarker ++ s) ::
               history.drop (history.length - keepRecent))
           else st.storedHistories v }) := by
  have h15 : (15 : Nat) < history.length := hlen
  have hcut : 0 < history.length - keepRecent := by
    show 0 < history.length - 5
    omega
  rw [compactStep, if_pos hlen, if_pos hcut]
  rfl

theorem trimTurn_bounded (current : List ChatCompletionMessage) (p a : String) :
    (trimTurn current p a).length ≤ maxHistory := by
  rw [trimTurn]
  split
  · rw [List.length_drop]
    omega
  · rename_i hle
    rw [not_lt] at hle
    exact hle

theorem appendTurn_histories_self (st : ChatState) (u p a : String) :
    (appendTurn st u p a).histories u =
      some (trimTurn ((st.histories u).getD []) p a) := by
  simp [appendTurn]

theorem appendTurn_stored_self (st : ChatState) (u p a : String) :
    (appendTurn st u p a).storedHistories u =
      some (trimTurn ((st.histories u).getD []) p a) := by
  simp [appendTurn]

theorem chat_of_rate_ok (st : ChatState) (rl : Int)
    (rates' : String → Option RateWindow) (user : User) (prompt : String)
    (now : Int) (so co : Option (List String))
    (hrate : consumeRate rl st.rates user.ID now = .ok rates') :
    chat st true rl user prompt now so co =
      chatCore { st with rates := rates' } user prompt so co := by
  rw [chat, if_pos rfl, hrate]

theorem chatCore_historyUsed (st1 : ChatState) (user : User) (prompt : String)
    (so co : Option (List String)) :
    (chatCore st1 user prompt so co).historyUsed =
      (compactStep (loadHistory st1 user.ID).2 user.ID (loadHistory st1 user.ID).1 so).1 := by
  rcases co with _ | ⟨_ | ⟨a, rest⟩⟩ <;> rfl

theorem chatCore_request (st1 : ChatState) (user : User) (prompt : String)
    (so co : Option (List String)) :
    (chatCore st1 user prompt so co).request =
      some (systemMessagesFor user ++
        (compactStep (loadHistory st1 user.ID).2 user.ID (loadHistory st1 user.ID).1 so).1 ++
        [ChatCompletionMessage.mk "user" prompt]) := by
  rcases co with _ | ⟨_ | ⟨a, rest⟩⟩ <;> rfl

theorem chatCore_state_err (st1 : ChatState) (user : User) (prompt : String)
    (so co : Option (List String)) (h : co = none ∨ co = some []) :
    (chatCore st1 user prompt so co).state =
      (compactStep (loadHistory st1 user.ID).2 user.ID (loadHistory st1 user.ID).1 so).2 := by
  rcases h with h | h <;> subst h <;> rfl

theorem chatCore_result_ok (st1 : ChatState) (user : User) (prompt : String)
    (so : Option (List String)) (a : String) (rest : List String) :
    (chatCore st1 user prompt so (some (a :: rest))).result = .ok a := rfl

theorem chatCore_result_none (st1 : ChatState) (user : User) (prompt : String)
    (so : Option (List String)) :
    (chatCore st1 user prompt so none).result = .error .completionFailed := rfl

theorem chatCore_result_nil (st1 : ChatState) (user : User) (prompt : String)
    (so : Option (List String)) :
    (chatCore st1 user prompt so (some [])).result = .error .emptyResponse := rfl

/-! Claim theorems about the chat engine. -/

/-- C2: consumeRate admits every request when the configured limit is ≤ 0;
otherwise a request with no window, or whose window started more than one
minute before the request, opens a fresh window with count 1 and is admitted;
a request inside the current window is admitted and increments the count when
the count is below the limit, and is rejected with the rate-limited error
carrying the limit when the count is at or above it. -/
theorem consumeRate_fixed_window (L : Int) (rates : String → Option RateWindow)
    (u : String) (now : Int) :
    (L ≤ 0 → consumeRate L rates u now = .ok rates) ∧
    (0 < L → rates u = none →
      ∃ rates', consumeRate L rates u now = .ok rates' ∧
        rates' u = some ⟨now, 1⟩) ∧
    (0 < L → ∀ w, rates u = some w → minuteNs < now - w.start →
      ∃ rates', consumeRate L rates u now = .ok rates' ∧
        rates' u = some ⟨now, 1⟩) ∧
    (0 < L → ∀ w, rates u = some w → ¬ minuteNs < now - w.start → (w.count : Int) < L →
      ∃ rates', consumeRate L rates u now = .ok rates' ∧
        rates' u = some ⟨w.start, w.count + 1⟩) ∧
    (0 < L → ∀ w, rates u = some w → ¬ minuteNs < now - w.start → L ≤ (w.count : Int) →
      consumeRate L rates u now = .error (.rateLimited L)) := by
  refine ⟨?_, ?_, ?_, ?_, ?_⟩
  · intro hL
    rw [consumeRate, if_pos hL]
  · intro hL hw
    refine ⟨fun v => if v = u then some ⟨now, 1⟩ else rates v, ?_, by simp⟩
    rw [consumeRate, if_neg (not_le.mpr hL), hw]
  · intro hL w hw hstale
    refine ⟨fun v => if v = u then some ⟨now, 1⟩ else rates v, ?_, by simp⟩
    rw [consumeRate, if_neg (not_le.mpr hL), hw]
    simp only [if_pos hstale]
  · intro hL w hw hfresh hcount
    refine ⟨fun v => if v = u then some ⟨w.start, w.count + 1⟩ else rates v, ?_, by simp⟩
    rw [consumeRate, if_neg (not_le.mpr hL), hw]
    simp only [if_neg hfresh, if_neg (not_le.mpr hcount)]
  · intro hL w hw hfresh hcount
    rw [consumeRate, if_neg (not_le.mpr hL), hw]
    simp only [if_neg hfresh, if_pos hcount]

theorem consumeRate_fixed_window_witness :
    (∃ rates', consumeRate 2 (fun _ => none) "u" 5 = .ok rates' ∧
      rates' "u" = some ⟨5, 1⟩) ∧
    consumeRate 2 (fun _ => some ⟨0, 2⟩) "u" 5 = .error (.rateLimited 2) := by
  constructor
  · exact (consumeRate_fixed_window 2 (fun _ => none) "u" 5).2.1 (by decide) rfl
  · exact (consumeRate_fixed_window 2 (fun _ => some ⟨0, 2⟩) "u" 5).2.2.2.2
      (by decide) ⟨0, 2⟩ rfl (by decide) (by decide)

/-! Concrete chat states for witnesses and counterexamples. -/

def chatSt0 : ChatState := ⟨fun _ => none, fun _ => none, fun _ => none⟩

def hist16 : List ChatCompletionMessage :=
  List.replicate 16 ⟨"user", "x"⟩

def chatSt16 : ChatState :=
  ⟨fun _ => none, fun u => if u = "u1" then some hist16 else none, fun _ => none⟩

def demoTurn : ChatTurn := ⟨true, 0, demoUser, "hi", 0, none, some ["ok"]⟩

/-- C3: when the loaded history is longer than the summarization threshold and
the summarization call succeeds with summary `s`, Chat replaces the history
used for the turn by a single synthetic system turn whose content is the fixed
marker followed by `s`, then exactly the `keepRecent` most recent messages of
the pre-compaction history, kept verbatim (they are the drop-suffix whose
concatenation with the take-prefix reproduces the original history); the
replacement is also what is stored in memory and handed to persistence when
the turn ends right after compaction. -/
theorem chat_compaction_marker (st : ChatState) (rl : Int)
    (rates' : String → Option RateWindow) (user : User) (prompt : String)
    (now : Int) (s : String) (rest : List String) (co : Option (List String))
    (hrate : consumeRate rl st.rates user.ID now = .ok rates')
    (hlen : summaryThreshold < (visibleHistory st user.ID).length) :
    (chat st true rl user prompt now (some (s :: rest)) co).historyUsed =
      ChatCompletionMessage.mk "system" (summaryMarker ++ s) ::
        (visibleHistory st user.ID).drop ((visibleHistory st user.ID).length - keepRecent) ∧
    ((visibleHistory st user.ID).drop
        ((visibleHistory st user.ID).length - keepRecent)).length = keepRecent ∧
    (visibleHistory st user.ID).take ((visibleHistory st user.ID).length - keepRecent) ++
      (visibleHistory st user.ID).drop ((visibleHistory st user.ID).length - keepRecent) =
      visibleHistory st user.ID ∧
    (co = none →
      (chat st true rl user prompt now (some (s :: rest)) co).state.histories user.ID =
        some ((chat st true rl user prompt now (some (s :: rest)) co).historyUsed) ∧
      (chat st true rl user prompt now (some (s :: rest)) co).state.storedHistories user.ID =
        some ((chat st true rl user prompt now (some (s :: rest)) co).historyUsed)) := by
  have hrw := chat_of_rate_ok st rl rates' user prompt now (some (s :: rest)) co hrate
  have hload : (loadHistory { st with rates := rates' } user.ID).1 =
      visibleHistory st user.ID := loadHistory_fst _ _
  have hlen1 : summaryThreshold <
      ((loadHistory { st with rates := rates' } user.ID).1).length := by
    rw [hload]
    exact hlen
  have hcomp := compactStep_fire ((loadHistory { st with rates := rates' } user.ID).2)
    user.ID ((loadHistory { st with rates := rates' } user.ID).1) s rest hlen1
  have hused : (chat st true rl user prompt now (some (s :: rest)) co).historyUsed =
      ChatCompletionMessage.mk "system" (summaryMarker ++ s) ::
        (visibleHistory st user.ID).drop ((visibleHistory st user.ID).length - keepRecent) := by
    rw [hrw, chatCore_historyUsed, hcomp, hload]
  have h15 : (15 : Nat) < (visibleHistory st user.ID).length := hlen
  refine ⟨hused, ?_, List.take_append_drop _ _, ?_⟩
  · rw [List.length_drop]
    show (visibleHistory st user.ID).length -
      ((visibleHistory st user.ID).length - 5) = 5
    omega
  · intro hco
    subst hco
    have hstate : (chat st true rl user prompt now (some (s :: rest)) none).state =
        (compactStep ((loadHistory { st with rates := rates' } user.ID).2) user.ID
          ((loadHistory { st with rates := rates' } user.ID).1) (some (s :: rest))).2 := by
      rw [hrw, chatCore_state_err]
      exact Or.inl rfl
    rw [hstate, hcomp, hused]
    constructor
    · show (if user.ID = user.ID then
        some (ChatCompletionMessage.mk "system" (summaryMarker ++ s) ::
          ((loadHistory { st with rates := rates' } user.ID).1).drop
            (((loadHistory { st with rates := rates' } user.ID).1).length - keepRecent))
        else ((loadHistory { st with rates := rates' } user.ID).2).histories user.ID) = _
      rw [if_pos rfl, hload]
    · show (if user.ID = user.ID then
        some (ChatCompletionMessage.mk "system" (summaryMarker ++ s) ::
          ((loadHistory { st with rates := rates' } user.ID).1).drop
            (((loadHistory { st with rates := rates' } user.ID).1).length - keepRecent))
        else ((loadHistory { st with rates := rates' } user.ID).2).storedHistories user.ID) = _
      rw [if_pos rfl, hload]

theorem chat_compaction_marker_witness :
    (chat chatSt16 true 0 demoUser "hi" 0 (some ["S"]) none).historyUsed =
      ChatCompletionMessage.mk "system" (summaryMarker ++ "S") ::
        (visibleHistory chatSt16 "u1").drop ((visibleHistory chatSt16 "u1").length - keepRecent) := by
  have h := chat_compaction_marker chatSt16 0 chatSt16.rates demoUser "hi" 0 "S" [] none
    rfl (by decide)
  exact h.1

/-- C9: when the summarization sub-call fails (transport error or empty
choices) on a history long enough to trigger compaction, the chat turn still
proceeds: compaction is skipped, the uncompacted history is used as-is to
assemble the outbound request, and the result of the turn is determined solely
by the completion oracle — a successful completion yields its answer, and the
only errors are the completion-related ones (the summarization failure is
never returned). -/
theorem chat_summary_failure_skips_compaction (st : ChatState) (rl : Int)
    (rates' : String → Option RateWindow) (user : User) (prompt : String)
    (now : Int) (so co : Option (List String))
    (hrate : consumeRate rl st.rates user.ID now = .ok rates')
    (hsum : so = none ∨ so = some [])
    (hlen : summaryThreshold < (visibleHistory st user.ID).length) :
    (chat st true rl user prompt now so co).historyUsed = visibleHistory st user.ID ∧
    (chat st true rl user prompt now so co).request =
      some (systemMessagesFor user ++ visibleHistory st user.ID ++
        [ChatCompletionMessage.mk "user" prompt]) ∧
    (∀ a rest, co = some (a :: rest) →
      (chat st true rl user prompt now so co).result = .ok a) ∧
    (co = none →
      (chat st true rl user prompt now so co).result = .error .completionFailed) ∧
    (co = some [] →
      (chat st true rl user prompt now so co).result = .error .emptyResponse) := by
  have hrw := chat_of_rate_ok st rl rates' user prompt now so co hrate
  have hload : (loadHistory { st with rates := rates' } user.ID).1 =
      visibleHistory st user.ID := loadHistory_fst _ _
  have hcomp := compactStep_sum_fail ((loadHistory { st with rates := rates' } user.ID).2)
    user.ID ((loadHistory { st with rates := rates' } user.ID).1) so hsum
  refine ⟨?_, ?_, ?_, ?_, ?_⟩
  · rw [hrw, chatCore_historyUsed, hcomp]
    exact hload
  · rw [hrw, chatCore_request, hcomp]
    rw [hload]
  · intro a rest hco
    subst hco
    rw [hrw]
    exact chatCore_result_ok _ _ _ _ _ _
  · intro hco
    subst hco
    rw [hrw]
    exact chatCore_result_none _ _ _ _
  · intro hco
    subst hco
    rw [hrw]
    exact chatCore_result_nil _ _ _ _

theorem chat_summary_failure_skips_compaction_witness :
    (chat chatSt16 true 0 demoUser "hi" 0 none (some ["A"])).historyUsed =
      visibleHistory chatSt16 "u1" ∧
    (chat chatSt16 true 0 demoUser "hi" 0 none (some ["A"])).result = .ok "A" := by
  have h := chat_summary_failure_skips_compaction chatSt16 0 chatSt16.rates demoUser
    "hi" 0 none (some ["A"]) rfl (Or.inl rfl) (by decide)
  exact ⟨h.1, h.2.2.1 "A" [] rfl⟩

theorem chatCore_ok_bounded (st1 : ChatState) (user : User) (prompt : String)
    (so co : Option (List String)) (a : String)
    (h : (chatCore st1 user prompt so co).result = .ok a) :
    ∃ hh, (chatCore st1 user prompt so co).state.histories user.ID = some hh ∧
      (chatCore st1 user prompt so co).state.storedHistories user.ID = some hh ∧
      hh.length ≤ maxHistory := by
  rcases co with _ | ⟨_ | ⟨ans, rest⟩⟩
  · exact absurd h (by simp [chatCore_result_none])
  · exact absurd h (by simp [chatCore_result_nil])
  · exact ⟨trimTurn (((compactStep (loadHistory st1 user.ID).2 user.ID
        (loadHistory st1 user.ID).1 so).2.histories user.ID).getD []) prompt ans,
      appendTurn_histories_self _ _ _ _, appendTurn_stored_self _ _ _ _,
      trimTurn_bounded _ _ _⟩

theorem chatTurn_ok_bounded (st : ChatState) (t : ChatTurn) (a : String)
    (h : (chatTurn st t).result = .ok a) :
    ∃ hh, (chatTurn st t).state.histories t.user.ID = some hh ∧
      (chatTurn st t).state.storedHistories t.user.ID = some hh ∧
      hh.length ≤ maxHistory := by
  rw [chatTurn, chat] at h ⊢
  by_cases hcfg : t.clientConfigured = true
  · rw [if_pos hcfg] at h ⊢
    rcases hrate : consumeRate t.rateLimit st.rates t.user.ID t.now with e | rates'
    · simp only [hrate] at h
      simp at h
    · simp only [hrate] at h ⊢
      exact chatCore_ok_bounded _ _ _ _ _ _ h
  · rw [if_neg hcfg] at h ⊢
    simp at h

/-- C4: after any non-empty sequence of chat turns for one user in which every
turn succeeded (each appending the user/assistant pair), the history held for
that user never exceeds the `maxHistory` ceiling, and the in-memory history
and the one handed to persistence are the same bounded slice. -/
theorem chat_history_bounded (uid : String) :
    ∀ (ts : List ChatTurn) (st : ChatState), ts ≠ [] → chatsSucceed st ts →
      (∀ t ∈ ts, t.user.ID = uid) →
      ∃ hh, (runChats st ts).histories uid = some hh ∧
        (runChats st ts).storedHistories uid = some hh ∧
        hh.length ≤ maxHistory := by
  intro ts
  induction ts with
  | nil =>
    intro st hne _ _
    exact absurd rfl hne
  | cons t rest ih =>
    intro st _ hok hu
    rw [runChats]
    rcases rest with _ | ⟨t2, rest'⟩
    · rw [runChats]
      obtain ⟨⟨a, ha⟩, _⟩ := hok
      have hb := chatTurn_ok_bounded st t a ha
      rw [hu t (by simp)] at hb
      exact hb
    · exact ih (chatTurn st t).state (by simp) hok.2
        (fun x hx => hu x (List.mem_cons_of_mem _ hx))

theorem chat_history_bounded_witness :
    ∃ hh, (runChats chatSt0 [demoTurn]).histories "u1" = some hh ∧
      (runChats chatSt0 [demoTurn]).storedHistories "u1" = some hh ∧
      hh.length ≤ maxHistory := by
  refine chat_history_bounded "u1" [demoTurn] chatSt0 (by simp) ⟨⟨"ok", rfl⟩, trivial⟩ ?_
  intro t ht
  rw [List.mem_singleton] at ht
  subst ht
  rfl

/-- C6 counterexample: a turn whose history (16 messages) triggers compaction
and whose summarization succeeds mutates the in-memory and persisted
conversation buffer even though the external completion call then fails — the
history visible to the next turn differs from the history before the failed
turn, refuting the no-mutation claim. -/
theorem chat_completion_failure_mutates_on_compaction :
    (chat chatSt16 true 0 demoUser "hi" 0 (some ["S"]) none).result =
      .error .completionFailed ∧
    (chat chatSt16 true 0 demoUser "hi" 0 (some ["S"]) none).state.histories "u1" ≠
      chatSt16.histories "u1" ∧
    (chat chatSt16 true 0 demoUser "hi" 0 (some ["S"]) none).state.storedHistories "u1" ≠
      chatSt16.storedHistories "u1" := by
  refine ⟨rfl, ?_, ?_⟩ <;> decide

/-- C6 amended: when the external completion call fails or returns an empty
result, Chat returns the distinct completion-unavailable error and the only
state changes of the turn are the single rate consumption that admitted the
request and any compaction performed while loading; in particular when the
turn triggered no compaction (history at or below the summarization
threshold), the history visible to the next turn and the entire persisted
history map are exactly as before the turn. -/
theorem chat_completion_failure_no_mutation (st : ChatState) (rl : Int)
    (rates' : String → Option RateWindow) (user : User) (prompt : String)
    (now : Int) (so co : Option (List String))
    (hrate : consumeRate rl st.rates user.ID now = .ok rates')
    (hco : co = none ∨ co = some [])
    (hnc : ¬ summaryThreshold < (visibleHistory st user.ID).length) :
    ((chat st true rl user prompt now so co).result = .error .completionFailed ∨
     (chat st true rl user prompt now so co).result = .error .emptyResponse) ∧
    (chat st true rl user prompt now so co).state.rates = rates' ∧
    visibleHistory (chat st true rl user prompt now so co).state user.ID =
      visibleHistory st user.ID ∧
    (chat st true rl user prompt now so co).state.storedHistories =
      st.storedHistories := by
  have hrw := chat_of_rate_ok st rl rates' user prompt now so co hrate
  have hload : (loadHistory { st with rates := rates' } user.ID).1 =
      visibleHistory st user.ID := loadHistory_fst _ _
  have hnc1 : ¬ summaryThreshold <
      ((loadHistory { st with rates := rates' } user.ID).1).length := by
    rw [hload]
    exact hnc
  have hcomp := compactStep_skip ((loadHistory { st with rates := rates' } user.ID).2)
    user.ID ((loadHistory { st with rates := rates' } user.ID).1) so hnc1
  have hstate : (chat st true rl user prompt now so co).state =
      (loadHistory { st with rates := rates' } user.ID).2 := by
    rw [hrw, chatCore_state_err _ _ _ _ _ hco, hcomp]
  refine ⟨?_, ?_, ?_, ?_⟩
  · rcases hco with h | h <;> subst h
    · exact Or.inl (by rw [hrw]; exact chatCore_result_none _ _ _ _)
    · exact Or.inr (by rw [hrw]; exact chatCore_result_nil _ _ _ _)
  · rw [hstate, loadHistory_snd_rates]
  · rw [hstate, loadHistory_snd_visible]
    exact rfl
  · rw [hstate, loadHistory_snd_stored]

theorem chat_completion_failure_no_mutation_witness :
    ((chat chatSt0 true 0 demoUser "hi" 0 none none).result = .error .completionFailed ∨
     (chat chatSt0 true 0 demoUser "hi" 0 none none).result = .error .emptyResponse) ∧
    (chat chatSt0 true 0 demoUser "hi" 0 none none).state.rates = chatSt0.rates ∧
    visibleHistory (chat chatSt0 true 0 demoUser "hi" 0 none none).state "u1" =
      visibleHistory chatSt0 "u1" ∧
    (chat chatSt0 true 0 demoUser "hi" 0 none none).state.storedHistories =
      chatSt0.storedHistories :=
  chat_completion_failure_no_mutation chatSt0 0 chatSt0.rates demoUser "hi" 0 none none
    rfl (Or.inl rfl) (by decide)

end Papaya
